import Mathlib

/-!
Verification development for the location-provider aggregation engine
(registry/providers/location) and the critical/site configuration store
(pkg/db/confdb).

The aggregation engine is embedded as a pure event-processing model: a
getLocations run is driven by a list of run items (outer provider-list
emissions and per-provider stream events), the switchMap/combineLatest state
is explicit, and the downstream operator pipe (filter, INITIAL removal,
flattenAndCompact, defaultIfEmpty, distinctUntilChanged) is a function on the
list of raw combineLatest emissions. Locations are opaque values compared by
identity, modelled by a type with decidable equality.
-/

namespace LocProviders

/-- A result value a single provider can emit for a query: null, a single
Location, or an array of Locations. -/
inductive RVal (L : Type) where
  | nul : RVal L
  | one : L → RVal L
  | arr : List L → RVal L
deriving DecidableEq

/-- An event on one provider's result stream: an emission or a raised error. -/
inductive PEvent (L : Type) where
  | emit : RVal L → PEvent L
  | err : PEvent L
deriving DecidableEq

/-- The latest value of one combineLatest slot: either the INITIAL sentinel
prepended by startWith, or a provider value (null after catchError replaced an
error by a terminal null emission). -/
inductive Slot (L : Type) where
  | initial : Slot L
  | val : RVal L → Slot L
deriving DecidableEq

/-- Whether a slot still holds the INITIAL sentinel. -/
def isInitial {L : Type} : Slot L → Bool
  | .initial => true
  | .val _ => false

/-- The slot written by a provider event: an emission updates the latest value
and keeps the stream live; an error is converted by catchError into a terminal
null, so the slot becomes null and the provider stream terminates. -/
def eventSlot {L : Type} : PEvent L → Slot L × Bool
  | .emit v => (.val v, false)
  | .err => (.val .nul, true)

/-- Deliver one event of provider i to the combineLatest state. Each slot
carries its latest value and whether that provider's stream has terminated.
A terminated or nonexistent provider delivers nothing; otherwise the slot is
updated and combineLatest emits the new snapshot of all latest values. -/
def applyEvent {L : Type} (slots : List (Slot L × Bool)) (i : Nat) (ev : PEvent L) :
    List (Slot L × Bool) × Option (List (Slot L)) :=
  match slots[i]? with
  | none => (slots, none)
  | some (_, true) => (slots, none)
  | some (_, false) =>
      let slots' := slots.set i (eventSlot ev)
      (slots', some (slots'.map Prod.fst))

/-- One item of a getLocations run: an emission of the outer providers
observable (a fresh provider list of given length, starting a new merge
session and superseding the previous one), or an event of provider i
belonging to merge session s (sessions are numbered from 0 in order of
start). -/
inductive RunItem (L : Type) where
  | newProviders : Nat → RunItem L
  | provEvent : Nat → Nat → PEvent L → RunItem L
deriving DecidableEq

/-- Whether a run item is a provider event (as opposed to an emission of the
outer providers observable). -/
def isProvEvent {L : Type} : RunItem L → Bool
  | .provEvent _ _ _ => true
  | .newProviders _ => false

/-- The switchMap state: how many merge sessions have started so far, and the
combineLatest slots of the current session (none before the outer observable
has emitted its first provider list). -/
structure RunState (L : Type) where
  count : Nat
  cur : Option (List (Slot L × Bool))
deriving DecidableEq

/-- The state before the outer providers observable has emitted. -/
def initState {L : Type} : RunState L := ⟨0, none⟩

/-- Process one run item. A new provider list replaces the current session:
switchMap unsubscribes the superseded inner subscription and subscribes the
new one. With no providers the inner observable emits null once; otherwise
combineLatest starts with every slot INITIAL (startWith) and emits its first
snapshot once all slots hold a value. A provider event is delivered only when
it belongs to the current session; an event of a superseded session is
discarded, since that session's subscriptions were torn down. -/
def stepItem {L : Type} (st : RunState L) :
    RunItem L → RunState L × List (Option (List (Slot L)))
  | .newProviders n =>
      (⟨st.count + 1, some (List.replicate n (Slot.initial, false))⟩,
        if n = 0 then [none] else [some (List.replicate n Slot.initial)])
  | .provEvent s i ev =>
      match st.cur with
      | none => (st, [])
      | some slots =>
          if s + 1 = st.count then
            match applyEvent slots i ev with
            | (slots', none) => (⟨st.count, some slots'⟩, [])
            | (slots', some snap) => (⟨st.count, some slots'⟩, [some snap])
          else (st, [])

/-- Fold a list of run items from a given state, collecting the raw
combineLatest emissions in order. -/
def runStepsFrom {L : Type} (st : RunState L) :
    List (RunItem L) → RunState L × List (Option (List (Slot L)))
  | [] => (st, [])
  | it :: its =>
      let p := stepItem st it
      let q := runStepsFrom p.1 its
      (q.1, p.2 ++ q.2)

/-- The raw emissions reaching the operator pipe below switchMap. -/
def runRaw {L : Type} (items : List (RunItem L)) : List (Option (List (Slot L))) :=
  (runStepsFrom initState items).2

/-- The members contributed by a single slot once flattened: a member still
INITIAL contributes nothing (handled separately), null contributes nothing, a
single Location contributes itself, an array contributes its elements. -/
def rvalList {L : Type} : RVal L → List L
  | .nul => []
  | .one l => [l]
  | .arr ls => ls

/-- Modelled from the spec: flattenAndCompact, imported from the util module,
whose source is not included here. It flattens the members (each null, a
single Location, or an array of Locations) into one array, discarding nulls,
and normalizes an empty result to null. -/
def flattenAndCompact {L : Type} (vs : List (RVal L)) : Option (List L) :=
  let m := vs.flatMap rvalList
  if m.isEmpty then none else some m

/-- Remove the members still equal to the INITIAL sentinel from a snapshot. -/
def dropInitial {L : Type} (ss : List (Slot L)) : List (RVal L) :=
  ss.filterMap fun s => match s with | .initial => none | .val v => some v

/-- The spec's flattening law for a combined snapshot, written from its words
for comparison with the pipeline stages taken from the source: a member still
equal to the Sentinel is dropped, a null member contributes nothing, a single
Location contributes itself, an array member contributes its elements in
order, and member (provider-registration) order is preserved, so duplicate
locations across members are retained. -/
def specSnapshotFlatten {L : Type} : List (Slot L) → List L
  | [] => []
  | .initial :: ss => specSnapshotFlatten ss
  | .val .nul :: ss => specSnapshotFlatten ss
  | .val (.one l) :: ss => l :: specSnapshotFlatten ss
  | .val (.arr ls) :: ss => ls ++ specSnapshotFlatten ss

/-- The custom comparator given to distinctUntilChanged: two results are equal
iff both are null, or both are arrays of the same length whose elements are
pairwise identical at the same index. -/
def dedupEq {L : Type} [DecidableEq L] : Option (List L) → Option (List L) → Bool
  | none, none => true
  | some a, some b => a.length == b.length && (a.zip b).all fun p => p.1 == p.2
  | _, _ => false

/-- Tail worker of distinctUntilChanged: prev is the last emitted value. -/
def distinctAux {α : Type} (eq : α → α → Bool) : α → List α → List α
  | _, [] => []
  | prev, y :: ys => if eq prev y then distinctAux eq prev ys else y :: distinctAux eq y ys

/-- distinctUntilChanged as a list transformer: keep the first element, then
drop every element equal (under the comparator) to the last kept one. -/
def distinctUntilChanged {α : Type} (eq : α → α → Bool) : List α → List α
  | [] => []
  | x :: xs => x :: distinctAux eq x xs

/-- The operator stages between switchMap and defaultIfEmpty: drop snapshots
in which every member is still INITIAL, remove INITIAL members from the rest,
then flattenAndCompact; a null raw emission (from the empty provider list)
passes the filter and maps to null. -/
def normalize {L : Type} (raw : List (Option (List (Slot L)))) : List (Option (List L)) :=
  ((raw.filter fun r => match r with
      | none => true
      | some s => !s.all isInitial).map fun r => r.map dropInitial).map
    fun r => r.bind flattenAndCompact

/-- getLocations: the full pipe. The completed flag says whether the whole
stream has completed; defaultIfEmpty emits a null exactly when the stream
completes without any emission. The final stage is distinctUntilChanged under
the shallow dedup comparator. -/
def getLocations {L : Type} [DecidableEq L] (items : List (RunItem L)) (completed : Bool) :
    List (Option (List L)) :=
  let flat := normalize (runRaw items)
  let withDefault := if completed && flat.isEmpty then [none] else flat
  distinctUntilChanged dedupEq withDefault

/-- getLocation: maps each getLocations result, returning the single element
directly when the result is an array of exactly one element; null and arrays
of any other length pass through unchanged. -/
def getLocation {L : Type} [DecidableEq L] (items : List (RunItem L)) (completed : Bool) :
    List (RVal L) :=
  (getLocations items completed).map fun r =>
    match r with
    | some [l] => .one l
    | some ls => .arr ls
    | none => .nul

/-- A registry entry: the registration options' document selector together
with the registered provider. -/
structure Entry (Sel Prov : Type) where
  selector : Sel
  provider : Prov

/-- The value produced per emission by getLocationsAndProviders. The engine
invocation is represented by the provider list handed to getLocations:
locations = none means the merge engine was not invoked at all. -/
structure LocationsAndProviders (Prov : Type) where
  locations : Option (List Prov)
  hasProviders : Bool

/-- One emission of the registry composer: from the current entries and the
position params derived from the active-document context (none when there is
no active document), produce either the no-document value or the providers
whose selector matches the document together with the engine invocation.
matchSel is the external document-selector predicate. -/
def getLocationsAndProviders {Sel Prov Doc : Type}
    (matchSel : Sel → Doc → Bool) (entries : List (Entry Sel Prov)) (params : Option Doc) :
    LocationsAndProviders Prov :=
  match params with
  | none => ⟨none, false⟩
  | some doc =>
      let providers := (entries.filter fun e => matchSel e.selector doc).map Entry.provider
      ⟨some providers, decide (0 < providers.length)⟩

end LocProviders

namespace Confdb

/-- A critical/site config row: unique id, config type, raw JSON contents
(the created/updated timestamps carry no logic and are omitted). -/
structure Config where
  id : Nat
  type : String
  contents : String
deriving DecidableEq

/-- The critical_and_site_config table together with the serial id counter. -/
structure DB where
  rows : List Config
  nextId : Nat
deriving DecidableEq

/-- The error cases reachable in the model (database failures are not
modelled). -/
inductive Err where
  | invalidJSON : Err
deriving DecidableEq

def typeCritical : String := "critical"

def typeSite : String := "site"

/-- SELECT the row of the given type with the greatest id (ORDER BY id DESC
LIMIT 1); none when no config of that type has been written yet. -/
def getLatest (db : DB) (t : String) : Option Config :=
  (db.rows.filter fun r => decide (r.type = t)).foldl
    (fun acc r =>
      match acc with
      | none => some r
      | some a => if a.id < r.id then some r else some a)
    none

/-- createIfUpToDate: reject syntactically invalid JSON (the external jsonx
parser is abstracted by the valid predicate); then insert the new contents iff
no config of this type exists yet, or the supplied lastID equals the latest
config's id; otherwise return the existing latest config with no error. The
Config value returned on the insert path mirrors the Go code, whose returned
struct never has its Type field set. -/
def createIfUpToDate (valid : String → Bool) (db : DB) (t : String)
    (lastID : Option Nat) (contents : String) : Except Err (Config × DB) :=
  if valid contents = false then .error .invalidJSON
  else
    match getLatest db t with
    | none =>
        .ok (⟨db.nextId, "", contents⟩,
          ⟨db.rows ++ [⟨db.nextId, t, contents⟩], db.nextId + 1⟩)
    | some latest =>
        match lastID with
        | none => .ok (latest, db)
        | some x =>
            if latest.id = x then
              .ok (⟨db.nextId, "", contents⟩,
                ⟨db.rows ++ [⟨db.nextId, t, contents⟩], db.nextId + 1⟩)
            else .ok (latest, db)

/-- addDefault: when a config of the given type already exists, do nothing;
otherwise insert the configured default contents and return the new row's id. -/
def addDefault (valid : String → Bool) (db : DB) (t : String) (contents : String) :
    Except Err (Option Nat × DB) :=
  match getLatest db t with
  | some _ => .ok (none, db)
  | none =>
      match createIfUpToDate valid db t none contents with
      | .error e => .error e
      | .ok (latest, db') => .ok (some latest.id, db')

/-- SiteGetLatest: inside one transaction, ensure the default site config
exists, then return the most recently saved site config. The default site
config contents are a parameter (set once at startup in the Go code). -/
def SiteGetLatest (valid : String → Bool) (defaultSiteConfig : String) (db : DB) :
    Except Err (Option Config × DB) :=
  match addDefault valid db typeSite defaultSiteConfig with
  | .error e => .error e
  | .ok (_, db') => .ok (getLatest db' typeSite, db')

/-- CriticalGetLatest: as SiteGetLatest, for the critical config type. -/
def CriticalGetLatest (valid : String → Bool) (defaultCriticalConfig : String) (db : DB) :
    Except Err (Option Config × DB) :=
  match addDefault valid db typeCritical defaultCriticalConfig with
  | .error e => .error e
  | .ok (_, db') => .ok (getLatest db' typeCritical, db')

/-- SiteCreateIfUpToDate: ensure the default exists (adopting the freshly
inserted default's id as lastID when it was just created), then save the
contents iff lastID matches the latest saved site config. -/
def SiteCreateIfUpToDate (valid : String → Bool) (defaultSiteConfig : String) (db : DB)
    (lastID : Option Nat) (contents : String) : Except Err (Config × DB) :=
  match addDefault valid db typeSite defaultSiteConfig with
  | .error e => .error e
  | .ok (newLastID, db') =>
      let lastID' := match newLastID with
        | some x => some x
        | none => lastID
      createIfUpToDate valid db' typeSite lastID' contents

/-- CriticalCreateIfUpToDate: as SiteCreateIfUpToDate, for the critical
config type. -/
def CriticalCreateIfUpToDate (valid : String → Bool) (defaultCriticalConfig : String)
    (db : DB) (lastID : Option Nat) (contents : String) : Except Err (Config × DB) :=
  match addDefault valid db typeCritical defaultCriticalConfig with
  | .error e => .error e
  | .ok (newLastID, db') =>
      let lastID' := match newLastID with
        | some x => some x
        | none => lastID
      createIfUpToDate valid db' typeCritical lastID' contents

end Confdb

namespace LocProviders

theorem distinctAux_mem {α : Type} (eq : α → α → Bool) (l : List α) :
    ∀ prev r : α, r ∈ distinctAux eq prev l → r ∈ l := by
  induction l with
  | nil => intro prev r h; simp [distinctAux] at h
  | cons y ys ih =>
      intro prev r h
      simp only [distinctAux] at h
      split at h
      · exact List.mem_cons_of_mem y (ih prev r h)
      · rcases List.mem_cons.mp h with h1 | h2
        · exact h1 ▸ List.mem_cons_self y ys
        · exact List.mem_cons_of_mem y (ih y r h2)

theorem distinctUntilChanged_mem {α : Type} (eq : α → α → Bool) (l : List α) (r : α)
    (h : r ∈ distinctUntilChanged eq l) : r ∈ l := by
  cases l with
  | nil => simp [distinctUntilChanged] at h
  | cons x xs =>
      simp only [distinctUntilChanged] at h
      rcases List.mem_cons.mp h with h1 | h2
      · exact h1 ▸ List.mem_cons_self x xs
      · exact List.mem_cons_of_mem x (distinctAux_mem eq xs x r h2)

theorem distinctAux_append {α : Type} (eq : α → α → Bool) (y : α) (l : List α) :
    ∀ prev : α, distinctAux eq prev (l ++ [y]) =
      distinctAux eq prev l ++
        (if eq ((distinctAux eq prev l).getLastD prev) y then [] else [y]) := by
  induction l with
  | nil => intro prev; simp [distinctAux, List.getLastD]
  | cons z zs ih =>
      intro prev
      simp only [List.cons_append, distinctAux, List.append_eq]
      by_cases hc : eq prev z = true
      · simp only [hc, if_true]
        exact ih prev
      · simp only [hc, if_false, Bool.false_eq_true]
        rw [ih z]
        simp [List.getLastD_eq_getLast?, List.getLast?_cons]

theorem distinctUntilChanged_append {α : Type} (eq : α → α → Bool) (l : List α) (y : α) :
    distinctUntilChanged eq (l ++ [y]) =
      match (distinctUntilChanged eq l).getLast? with
      | none => [y]
      | some p =>
          if eq p y then distinctUntilChanged eq l else distinctUntilChanged eq l ++ [y] := by
  cases l with
  | nil => simp [distinctUntilChanged, distinctAux]
  | cons x xs =>
      simp only [List.cons_append, distinctUntilChanged]
      rw [distinctAux_append, List.getLast?_cons]
      rw [List.getLastD_eq_getLast?]
      by_cases hc : eq ((distinctAux eq x xs).getLast?.getD x) y = true
      · simp [hc]
      · simp [hc]

theorem runStepsFrom_append {L : Type} (l1 l2 : List (RunItem L)) :
    ∀ st : RunState L, runStepsFrom st (l1 ++ l2) =
      ((runStepsFrom (runStepsFrom st l1).1 l2).1,
        (runStepsFrom st l1).2 ++ (runStepsFrom (runStepsFrom st l1).1 l2).2) := by
  induction l1 with
  | nil => intro st; simp [runStepsFrom]
  | cons it its ih =>
      intro st
      simp only [List.cons_append, runStepsFrom, List.append_eq]
      rw [ih (stepItem st it).1]
      simp [List.append_assoc]

theorem runStepsFrom_id {L : Type} (st : RunState L) (l : List (RunItem L))
    (h : ∀ it ∈ l, stepItem st it = (st, [])) : runStepsFrom st l = (st, []) := by
  induction l with
  | nil => rfl
  | cons it its ih =>
      simp only [runStepsFrom]
      rw [h it (List.mem_cons_self it its)]
      exact ih fun x hx => h x (List.mem_cons_of_mem it hx)

theorem normalize_append {L : Type} (r1 r2 : List (Option (List (Slot L)))) :
    normalize (r1 ++ r2) = normalize r1 ++ normalize r2 := by
  simp [normalize, List.filter_append, List.map_append]

theorem normalize_singleton {L : Type} (snap : List (Slot L))
    (h : snap.all isInitial = false) :
    normalize [some snap] = [flattenAndCompact (dropInitial snap)] := by
  simp [normalize, h]

end LocProviders

namespace LocProviders

theorem applyEvent_live {L : Type} {slots : List (Slot L × Bool)} {i : Nat} {sl : Slot L}
    (h : slots[i]? = some (sl, false)) (ev : PEvent L) :
    applyEvent slots i ev =
      (slots.set i (eventSlot ev), some ((slots.set i (eventSlot ev)).map Prod.fst)) := by
  unfold applyEvent
  rw [h]

theorem set_map_not_all_initial {L : Type} {slots : List (Slot L × Bool)} {i : Nat}
    (hi : i < slots.length) (ev : PEvent L) :
    ((slots.set i (eventSlot ev)).map Prod.fst).all isInitial = false := by
  have h1 : ((slots.set i (eventSlot ev)).map Prod.fst)[i]? = some (eventSlot ev).1 := by
    rw [List.getElem?_map]
    simp [List.getElem?_set_self, hi]
  have h2 : (eventSlot ev).1 ∈ (slots.set i (eventSlot ev)).map Prod.fst :=
    List.getElem?_mem h1
  have h3 : isInitial (eventSlot ev).1 = false := by cases ev <;> rfl
  cases hall : ((slots.set i (eventSlot ev)).map Prod.fst).all isInitial with
  | false => rfl
  | true => exact absurd (List.all_eq_true.mp hall _ h2) (by simp [h3])

theorem getLocations_ongoing {L : Type} [DecidableEq L] (items : List (RunItem L)) :
    getLocations items false = distinctUntilChanged dedupEq (normalize (runRaw items)) := by
  simp [getLocations]

theorem runRaw_snoc_provEvent {L : Type} {items : List (RunItem L)} {s i : Nat}
    {slots : List (Slot L × Bool)} {sl : Slot L} (ev : PEvent L)
    (hcur : (runStepsFrom initState items).1.cur = some slots)
    (hs : s + 1 = (runStepsFrom initState items).1.count)
    (hlive : slots[i]? = some (sl, false)) :
    runRaw (items ++ [.provEvent s i ev]) =
      runRaw items ++ [some ((slots.set i (eventSlot ev)).map Prod.fst)] := by
  unfold runRaw
  rw [runStepsFrom_append]
  simp only [runStepsFrom]
  simp only [stepItem, hcur, hs, if_true, applyEvent_live hlive ev]
  simp

end LocProviders

namespace LocProviders

/-- C1: a result produced by the merge right after one more provider event is
suppressed if and only if it is equal, under the shallow dedup law (both null,
or arrays of equal length with pairwise identical elements), to the
immediately preceding emitted result; in particular a provider flipping from
the INITIAL sentinel to null while no other provider changes produces no new
emission. -/
theorem c1_dedup_law_suppression {L : Type} [DecidableEq L]
    (items : List (RunItem L)) (s i : Nat) (ev : PEvent L)
    (slots : List (Slot L × Bool)) (sl : Slot L)
    (hcur : (runStepsFrom initState items).1.cur = some slots)
    (hs : s + 1 = (runStepsFrom initState items).1.count)
    (hlive : slots[i]? = some (sl, false)) :
    (∀ p, (getLocations items false).getLast? = some p →
      getLocations (items ++ [.provEvent s i ev]) false =
        if dedupEq p (flattenAndCompact (dropInitial ((slots.set i (eventSlot ev)).map Prod.fst)))
        then getLocations items false
        else getLocations items false ++
          [flattenAndCompact (dropInitial ((slots.set i (eventSlot ev)).map Prod.fst))])
    ∧ ((getLocations items false).getLast? = none →
      getLocations (items ++ [.provEvent s i ev]) false =
        [flattenAndCompact (dropInitial ((slots.set i (eventSlot ev)).map Prod.fst))])
    ∧ ∀ lx : L,
        getLocations [.newProviders 2, .provEvent 0 0 (.emit (.arr [lx])),
          .provEvent 0 1 (.emit .nul)] false = [some [lx]] := by
  have hi : i < slots.length := (List.getElem?_eq_some_iff.mp hlive).1
  have hkey : getLocations (items ++ [.provEvent s i ev]) false =
      distinctUntilChanged dedupEq (normalize (runRaw items) ++
        [flattenAndCompact (dropInitial ((slots.set i (eventSlot ev)).map Prod.fst))]) := by
    rw [getLocations_ongoing, runRaw_snoc_provEvent ev hcur hs hlive, normalize_append,
      normalize_singleton _ (set_map_not_all_initial hi ev)]
  refine ⟨?_, ?_, ?_⟩
  · intro p hp
    rw [getLocations_ongoing] at hp
    rw [hkey, distinctUntilChanged_append, hp, getLocations_ongoing]
  · intro hp
    rw [getLocations_ongoing] at hp
    rw [hkey, distinctUntilChanged_append, hp]
  · intro lx
    simp [getLocations, runRaw, runStepsFrom, stepItem, applyEvent, initState, eventSlot,
      normalize, isInitial, dropInitial, flattenAndCompact, rvalList, distinctUntilChanged,
      distinctAux, dedupEq, List.replicate]

/-- Witness for C1: a first effective provider event on a fresh session is
always emitted (there is no preceding emitted result). -/
theorem c1_dedup_law_suppression_witness :
    getLocations (L := Nat) ([.newProviders 1] ++ [.provEvent 0 0 (.emit (.one 3))]) false =
      [some [3]] := by
  have h := (c1_dedup_law_suppression (L := Nat) [.newProviders 1] 0 0 (.emit (.one 3))
      [(Slot.initial, false)] Slot.initial (by decide) (by decide) (by decide)).2.1 (by decide)
  exact h.trans (by decide)

/-- C2: a provider error is intercepted: the failing provider's slot becomes a
single terminal null (its stream is marked terminated and emits the null
snapshot once), any later event of that provider is discarded without state
change or emission, and the other providers' emissions still appear in the
merged result: with provider 0 erroring and provider 1 emitting an array of
one location, the merged getLocations output is exactly that array. The error
itself never reaches the caller: catchError turns it into the null value, so
the pipeline output contains only values. -/
theorem c2_error_isolation {L : Type} [DecidableEq L]
    (slots : List (Slot L × Bool)) (i : Nat) (sl : Slot L)
    (hlive : slots[i]? = some (sl, false)) :
    ((applyEvent slots i .err).1[i]? = some (Slot.val .nul, true))
    ∧ (applyEvent slots i .err).2 = some ((slots.set i (Slot.val .nul, true)).map Prod.fst)
    ∧ (∀ ev' : PEvent L,
        applyEvent (applyEvent slots i .err).1 i ev' = ((applyEvent slots i .err).1, none))
    ∧ ∀ lx : L,
        getLocations [.newProviders 2, .provEvent 0 1 (.emit (.arr [lx])),
          .provEvent 0 0 .err] false = [some [lx]] := by
  have hi : i < slots.length := (List.getElem?_eq_some_iff.mp hlive).1
  have happ := applyEvent_live hlive PEvent.err
  refine ⟨?_, ?_, ?_, ?_⟩
  · rw [happ]
    simp [eventSlot, List.getElem?_set_self, hi]
  · rw [happ]
    rfl
  · intro ev'
    rw [happ]
    have hdead : (slots.set i (eventSlot .err))[i]? = some (Slot.val .nul, true) := by
      simp [eventSlot, List.getElem?_set_self, hi]
    unfold applyEvent
    rw [hdead]
  · intro lx
    simp [getLocations, runRaw, runStepsFrom, stepItem, applyEvent, initState, eventSlot,
      normalize, isInitial, dropInitial, flattenAndCompact, rvalList, distinctUntilChanged,
      distinctAux, dedupEq, List.replicate]

/-- Witness for C2: with one live provider, the error terminates it with a
null slot; and the concrete two-provider scenario emits only the healthy
provider's array. -/
theorem c2_error_isolation_witness :
    ((applyEvent (L := Nat) [(Slot.initial, false)] 0 .err).1[0]? =
        some (Slot.val .nul, true))
    ∧ getLocations (L := Nat) [.newProviders 2, .provEvent 0 1 (.emit (.arr [7])),
        .provEvent 0 0 .err] false = [some [7]] :=
  ⟨(c2_error_isolation [(Slot.initial, false)] 0 Slot.initial (by decide)).1,
    (c2_error_isolation [(Slot.initial, false)] 0 Slot.initial (by decide)).2.2.2 7⟩

/-- C3: a new merge session supersedes the previous one: the switchMap state
drops the superseded session's slots as soon as a new provider list arrives,
and an event belonging to a superseded session is discarded entirely, so the
caller-visible output of the run is the same as if the stale event had never
been delivered. -/
theorem c3_stale_session_discarded {L : Type} [DecidableEq L]
    (pre post : List (RunItem L)) (s i : Nat) (ev : PEvent L) (c : Bool)
    (h : s + 1 < (runStepsFrom initState pre).1.count) :
    getLocations (pre ++ .provEvent s i ev :: post) c = getLocations (pre ++ post) c
    ∧ ∀ (st : RunState L) (n : Nat),
        (stepItem st (.newProviders n)).1 =
          ⟨st.count + 1, some (List.replicate n (Slot.initial, false))⟩ := by
  constructor
  · have hne : ¬ s + 1 = (runStepsFrom initState pre).1.count := Nat.ne_of_lt h
    have hstep : stepItem (runStepsFrom initState pre).1 (.provEvent s i ev) =
        ((runStepsFrom initState pre).1, []) := by
      cases hc : (runStepsFrom (initState : RunState L) pre).1.cur with
      | none => simp [stepItem, hc]
      | some slots => simp [stepItem, hc, hne]
    have hraw : runRaw (pre ++ .provEvent s i ev :: post) = runRaw (pre ++ post) := by
      unfold runRaw
      rw [runStepsFrom_append pre (.provEvent s i ev :: post)]
      rw [runStepsFrom_append pre post]
      simp only [runStepsFrom]
      rw [hstep]
      simp
    simp [getLocations, hraw]
  · intro st n
    rfl

/-- Witness for C3: an event of superseded session 0 delivered after session 1
has started changes nothing in the output. -/
theorem c3_stale_session_discarded_witness :
    getLocations (L := Nat)
        ([.newProviders 1, .newProviders 1] ++ .provEvent 0 0 (.emit .nul) :: []) false =
      getLocations (L := Nat) ([.newProviders 1, .newProviders 1] ++ []) false :=
  (c3_stale_session_discarded [.newProviders 1, .newProviders 1] [] 0 0 (.emit .nul) false
    (by decide)).1

/-- C4: when the provider list is empty, getLocations emits null exactly once;
no provider exists to be invoked, and any provider events in the rest of the
run are no-ops, whatever they are and whether or not the stream completes. -/
theorem c4_empty_providers_null_once {L : Type} [DecidableEq L]
    (tail : List (RunItem L)) (c : Bool)
    (h : ∀ it ∈ tail, isProvEvent it = true) :
    getLocations (.newProviders 0 :: tail) c = [none] := by
  have hstep : ∀ it ∈ tail,
      stepItem (⟨1, some []⟩ : RunState L) it = (⟨1, some []⟩, []) := by
    intro it hit
    have hp := h it hit
    cases it with
    | newProviders n => simp [isProvEvent] at hp
    | provEvent s i ev =>
        by_cases hs : s + 1 = 1
        · simp [stepItem, hs, applyEvent]
        · simp [stepItem, hs]
  have hraw : runRaw (RunItem.newProviders 0 :: tail) = [none] := by
    unfold runRaw
    simp only [runStepsFrom]
    rw [show stepItem (initState : RunState L) (.newProviders 0) =
      (⟨1, some []⟩, [none]) from rfl]
    rw [runStepsFrom_id _ _ hstep]
    simp
  unfold getLocations
  rw [hraw]
  simp [normalize, distinctUntilChanged, distinctAux]

/-- Witness for C4: an empty provider list followed by a stray provider event
still emits null exactly once, even on stream completion. -/
theorem c4_empty_providers_null_once_witness :
    getLocations (L := Nat) (.newProviders 0 :: [.provEvent 0 0 .err]) true = [none] :=
  c4_empty_providers_null_once [.provEvent 0 0 .err] true (by decide)

theorem dropInitial_flatMap_eq_spec {L : Type} :
    ∀ snapshot : List (Slot L),
      (dropInitial snapshot).flatMap rvalList = specSnapshotFlatten snapshot := by
  intro snapshot
  induction snapshot with
  | nil => rfl
  | cons s ss ih =>
      cases s with
      | initial =>
          simp only [dropInitial, List.filterMap_cons] at ih ⊢
          simpa [specSnapshotFlatten] using ih
      | val v =>
          cases v with
          | nul =>
              simp only [dropInitial, List.filterMap_cons] at ih ⊢
              simpa [specSnapshotFlatten, rvalList] using ih
          | one l =>
              simp only [dropInitial, List.filterMap_cons] at ih ⊢
              simpa [specSnapshotFlatten, rvalList] using ih
          | arr ls =>
              simp only [dropInitial, List.filterMap_cons] at ih ⊢
              simpa [specSnapshotFlatten, rvalList] using ih

theorem specSnapshotFlatten_append {L : Type} :
    ∀ ss ts : List (Slot L),
      specSnapshotFlatten (ss ++ ts) = specSnapshotFlatten ss ++ specSnapshotFlatten ts := by
  intro ss ts
  induction ss with
  | nil => rfl
  | cons s ss ih =>
      cases s with
      | initial => simpa [specSnapshotFlatten] using ih
      | val v =>
          cases v with
          | nul => simpa [specSnapshotFlatten] using ih
          | one l => simpa [specSnapshotFlatten] using ih
          | arr ls => simp [specSnapshotFlatten, ih]

/-- C5: for every combined snapshot, members still equal to the Sentinel are
dropped and the remaining members are flattened into one array discarding
nulls, in member (provider-registration) order with each member's elements in
emission order and duplicates retained: the pipeline stages taken from the
source coincide with the spec's flattening law on every snapshot, that law is
compositional in snapshot order, the normalized result of every snapshot is
its flattening with empty normalized to null, every live provider event's
emission through the pipe carries exactly the flattening of the updated
snapshot, and providers emitting the arrays l1,l2 and l1 yield the flattened
result l1,l2,l1 for all locations l1 and l2. -/
theorem c5_flatten_order_duplicates {L : Type} [DecidableEq L] :
    (∀ snapshot : List (Slot L),
        (dropInitial snapshot).flatMap rvalList = specSnapshotFlatten snapshot)
    ∧ (∀ ss ts : List (Slot L),
        specSnapshotFlatten (ss ++ ts) = specSnapshotFlatten ss ++ specSnapshotFlatten ts)
    ∧ (∀ snapshot : List (Slot L),
        flattenAndCompact (dropInitial snapshot) =
          if specSnapshotFlatten snapshot = [] then none
          else some (specSnapshotFlatten snapshot))
    ∧ (∀ (items : List (RunItem L)) (s i : Nat) (ev : PEvent L)
        (slots : List (Slot L × Bool)) (sl : Slot L),
        (runStepsFrom initState items).1.cur = some slots →
        s + 1 = (runStepsFrom initState items).1.count →
        slots[i]? = some (sl, false) →
        normalize (runRaw (items ++ [.provEvent s i ev])) =
          normalize (runRaw items) ++
            [flattenAndCompact (dropInitial ((slots.set i (eventSlot ev)).map Prod.fst))])
    ∧ ∀ l1 l2 : L,
        getLocations [.newProviders 2, .provEvent 0 0 (.emit (.arr [l1, l2])),
          .provEvent 0 1 (.emit (.arr [l1]))] false =
          [some [l1, l2], some [l1, l2, l1]] := by
  refine ⟨dropInitial_flatMap_eq_spec, specSnapshotFlatten_append, ?_, ?_, ?_⟩
  · intro snapshot
    unfold flattenAndCompact
    rw [dropInitial_flatMap_eq_spec]
    by_cases h : specSnapshotFlatten snapshot = []
    · simp [h]
    · simp [h, List.isEmpty_iff]
  · intro items s i ev slots sl hcur hs hlive
    have hi : i < slots.length := (List.getElem?_eq_some_iff.mp hlive).1
    rw [runRaw_snoc_provEvent ev hcur hs hlive, normalize_append,
      normalize_singleton _ (set_map_not_all_initial hi ev)]
  · intro l1 l2
    simp [getLocations, runRaw, runStepsFrom, stepItem, applyEvent, initState, eventSlot,
      normalize, isInitial, dropInitial, flattenAndCompact, rvalList, distinctUntilChanged,
      distinctAux, dedupEq, List.replicate]

/-- Witness for C5: the per-event emission law applied to a concrete live
event of a fresh one-provider session. -/
theorem c5_flatten_order_duplicates_witness :
    normalize (runRaw (L := Nat) ([.newProviders 1] ++ [.provEvent 0 0 (.emit (.arr [9]))])) =
      normalize (runRaw (L := Nat) [.newProviders 1]) ++
        [flattenAndCompact (dropInitial (([((Slot.initial : Slot Nat), false)].set 0
          (eventSlot (.emit (.arr [9])))).map Prod.fst))] :=
  (c5_flatten_order_duplicates (L := Nat)).2.2.2.1
    [.newProviders 1] 0 0 (.emit (.arr [9])) [(Slot.initial, false)] Slot.initial
    (by decide) (by decide) (by decide)

end LocProviders

namespace LocProviders

theorem flattenAndCompact_none_or_nonempty {L : Type} (vs : List (RVal L)) :
    flattenAndCompact vs = none ∨ ∃ m, flattenAndCompact vs = some m ∧ m ≠ [] := by
  by_cases h : (vs.flatMap rvalList).isEmpty = true
  · left
    simp [flattenAndCompact, h]
  · right
    refine ⟨vs.flatMap rvalList, by simp [flattenAndCompact, h], ?_⟩
    simpa [List.isEmpty_iff] using h

/-- C6: every value emitted by getLocations is null or a non-empty array (the
Sentinel is not a value of the result type at all, and an empty flattened
array is normalized to null before emission); and a combined snapshot in
which every member is still the Sentinel is suppressed entirely: a session
whose providers have not yet spoken emits nothing. -/
theorem c6_no_sentinel_no_empty_array {L : Type} [DecidableEq L] :
    (∀ (items : List (RunItem L)) (c : Bool) (r : Option (List L)),
        r ∈ getLocations items c → r = none ∨ ∃ ls, r = some ls ∧ ls ≠ [])
    ∧ ∀ n : Nat, 1 ≤ n → getLocations (L := L) [.newProviders n] false = [] := by
  constructor
  · intro items c r hr
    simp only [getLocations] at hr
    have hr2 := distinctUntilChanged_mem _ _ r hr
    by_cases hw : (c && (normalize (runRaw items)).isEmpty) = true
    · rw [if_pos hw] at hr2
      simp only [List.mem_singleton] at hr2
      exact Or.inl hr2
    · rw [if_neg hw] at hr2
      simp only [normalize, List.mem_map] at hr2
      obtain ⟨a, ⟨b, hbmem, hba⟩, har⟩ := hr2
      cases a with
      | none => exact Or.inl har.symm
      | some vs =>
          rcases flattenAndCompact_none_or_nonempty vs with hn | ⟨m, hm, hme⟩
          · left
            rw [← har]
            simpa using hn
          · right
            refine ⟨m, ?_, hme⟩
            rw [← har]
            simpa using hm
  · intro n hn
    have hne : ¬ n = 0 := by omega
    have hraw : runRaw (L := L) [.newProviders n] =
        [some (List.replicate n Slot.initial)] := by
      simp [runRaw, runStepsFrom, stepItem, initState, hne]
    have hall : (List.replicate n (Slot.initial : Slot L)).all isInitial = true := by
      simp [List.all_eq_true, List.mem_replicate, isInitial]
    simp [getLocations, hraw, normalize, hall, distinctUntilChanged]

/-- Witness for C6: a concrete emitted value is null-or-nonempty, and a fresh
one-provider session with no provider emissions yet emits nothing. -/
theorem c6_no_sentinel_no_empty_array_witness :
    ((none : Option (List Nat)) = none ∨
      ∃ ls, (none : Option (List Nat)) = some ls ∧ ls ≠ [])
    ∧ getLocations (L := Nat) [.newProviders 1] false = [] :=
  ⟨(c6_no_sentinel_no_empty_array (L := Nat)).1 [.newProviders 0] false none (by decide),
    (c6_no_sentinel_no_empty_array (L := Nat)).2 1 (by decide)⟩

/-- C7: getLocation returns the single element directly when the merge result
is an array of exactly one element and passes null and arrays of two or more
elements through unchanged, while getLocations returns the merge result
itself: one provider emitting a single location yields that location from
getLocation and a one-element array from getLocations. -/
theorem c7_singleton_unwrap {L : Type} [DecidableEq L]
    (items : List (RunItem L)) (c : Bool) (k : Nat) :
    ((getLocations items c)[k]? = some none → (getLocation items c)[k]? = some .nul)
    ∧ (∀ l : L, (getLocations items c)[k]? = some (some [l]) →
        (getLocation items c)[k]? = some (.one l))
    ∧ (∀ ls : List L, 2 ≤ ls.length → (getLocations items c)[k]? = some (some ls) →
        (getLocation items c)[k]? = some (.arr ls))
    ∧ ∀ lx : L,
        getLocation [.newProviders 1, .provEvent 0 0 (.emit (.one lx))] false = [.one lx]
        ∧ getLocations [.newProviders 1, .provEvent 0 0 (.emit (.one lx))] false =
            [some [lx]] := by
  refine ⟨?_, ?_, ?_, ?_⟩
  · intro h
    simp [getLocation, List.getElem?_map, h]
  · intro l h
    simp [getLocation, List.getElem?_map, h]
  · intro ls hlen h
    rcases ls with _ | ⟨a, _ | ⟨b, t⟩⟩
    · simp at hlen
    · simp at hlen
    · simp [getLocation, List.getElem?_map, h]
  · intro lx
    constructor
    · simp [getLocation, getLocations, runRaw, runStepsFrom, stepItem, applyEvent, initState,
        eventSlot, normalize, isInitial, dropInitial, flattenAndCompact, rvalList,
        distinctUntilChanged, distinctAux, dedupEq, List.replicate]
    · simp [getLocations, runRaw, runStepsFrom, stepItem, applyEvent, initState, eventSlot,
        normalize, isInitial, dropInitial, flattenAndCompact, rvalList, distinctUntilChanged,
        distinctAux, dedupEq, List.replicate]

/-- Witness for C7: a two-element merge result passes through getLocation
unchanged as an array. -/
theorem c7_singleton_unwrap_witness :
    getLocation (L := Nat) [.newProviders 1, .provEvent 0 0 (.emit (.arr [4, 6]))] false =
      [.arr [4, 6]] := by
  have h := (c7_singleton_unwrap (L := Nat)
      [.newProviders 1, .provEvent 0 0 (.emit (.arr [4, 6]))] false 0).2.2.1
      [4, 6] (by decide) (by decide)
  have hlen : (getLocation (L := Nat)
      [.newProviders 1, .provEvent 0 0 (.emit (.arr [4, 6]))] false).length = 1 := by decide
  exact List.ext_getElem? fun k => by
    match k with
    | 0 => exact h.trans (by decide)
    | k + 1 =>
        rw [List.getElem?_eq_none (by omega), List.getElem?_eq_none (by simp)]

/-- C8: the registry composer exposes the no-document value without invoking
the merge engine when no active document exists, and otherwise exposes
hasProviders true exactly when some registered entry's selector matches the
document, invoking the engine on the matching providers in registration
order. -/
theorem c8_registry_composer {Sel Prov Doc : Type} (matchSel : Sel → Doc → Bool)
    (entries : List (Entry Sel Prov)) :
    getLocationsAndProviders matchSel entries none =
      ⟨none, false⟩
    ∧ ∀ doc : Doc,
        ((getLocationsAndProviders matchSel entries (some doc)).hasProviders = true ↔
          (entries.filter fun e => matchSel e.selector doc) ≠ [])
        ∧ (getLocationsAndProviders matchSel entries (some doc)).locations =
            some ((entries.filter fun e => matchSel e.selector doc).map Entry.provider) := by
  refine ⟨rfl, fun doc => ⟨?_, rfl⟩⟩
  simp [getLocationsAndProviders, List.length_pos]

end LocProviders

namespace Confdb

theorem foldl_latest_some (l : List Config) (a : Config) :
    ∃ b, l.foldl
      (fun acc r =>
        match acc with
        | none => some r
        | some a => if a.id < r.id then some r else some a)
      (some a) = some b := by
  induction l generalizing a with
  | nil => exact ⟨a, rfl⟩
  | cons r rs ih =>
      simp only [List.foldl]
      by_cases h : a.id < r.id
      · simpa [h] using ih r
      · simpa [h] using ih a

theorem getLatest_none_iff (db : DB) (t : String) :
    getLatest db t = none ↔ (db.rows.filter fun r => decide (r.type = t)) = [] := by
  constructor
  · intro h
    cases hf : db.rows.filter (fun r => decide (r.type = t)) with
    | nil => rfl
    | cons r rs =>
        exfalso
        unfold getLatest at h
        rw [hf] at h
        simp only [List.foldl] at h
        obtain ⟨b, hb⟩ := foldl_latest_some rs r
        rw [hb] at h
        exact Option.noConfusion h
  · intro h
    unfold getLatest
    rw [h]
    rfl

theorem getLatest_insert (db : DB) (t c : String) (m : Nat)
    (h : getLatest db t = none) :
    getLatest ⟨db.rows ++ [⟨db.nextId, t, c⟩], m⟩ t = some ⟨db.nextId, t, c⟩ := by
  have hf : db.rows.filter (fun r => decide (r.type = t)) = [] :=
    (getLatest_none_iff db t).mp h
  unfold getLatest
  simp [List.filter_append, hf, List.foldl]

/-- C9: SiteGetLatest and CriticalGetLatest are not pure reads: when no config
row of the corresponding type exists, the call inserts the configured default
contents as a new row and returns it; when a row already exists, nothing is
inserted and the database state is returned unchanged together with the
existing latest config. -/
theorem c9_getlatest_inserts_default (valid : String → Bool)
    (defSite defCritical : String) (db : DB) :
    (getLatest db typeSite = none → valid defSite = true →
      SiteGetLatest valid defSite db =
        .ok (some ⟨db.nextId, typeSite, defSite⟩,
          ⟨db.rows ++ [⟨db.nextId, typeSite, defSite⟩], db.nextId + 1⟩))
    ∧ (∀ c, getLatest db typeSite = some c →
        SiteGetLatest valid defSite db = .ok (some c, db))
    ∧ (getLatest db typeCritical = none → valid defCritical = true →
      CriticalGetLatest valid defCritical db =
        .ok (some ⟨db.nextId, typeCritical, defCritical⟩,
          ⟨db.rows ++ [⟨db.nextId, typeCritical, defCritical⟩], db.nextId + 1⟩))
    ∧ ∀ c, getLatest db typeCritical = some c →
        CriticalGetLatest valid defCritical db = .ok (some c, db) := by
  refine ⟨?_, ?_, ?_, ?_⟩
  · intro h hv
    have hcr : createIfUpToDate valid db typeSite none defSite =
        .ok (⟨db.nextId, "", defSite⟩,
          ⟨db.rows ++ [⟨db.nextId, typeSite, defSite⟩], db.nextId + 1⟩) := by
      simp [createIfUpToDate, hv, h]
    have had : addDefault valid db typeSite defSite =
        .ok (some db.nextId,
          ⟨db.rows ++ [⟨db.nextId, typeSite, defSite⟩], db.nextId + 1⟩) := by
      simp [addDefault, h, hcr]
    simp [SiteGetLatest, had, getLatest_insert db typeSite defSite (db.nextId + 1) h]
  · intro c hc
    simp [SiteGetLatest, addDefault, hc]
  · intro h hv
    have hcr : createIfUpToDate valid db typeCritical none defCritical =
        .ok (⟨db.nextId, "", defCritical⟩,
          ⟨db.rows ++ [⟨db.nextId, typeCritical, defCritical⟩], db.nextId + 1⟩) := by
      simp [createIfUpToDate, hv, h]
    have had : addDefault valid db typeCritical defCritical =
        .ok (some db.nextId,
          ⟨db.rows ++ [⟨db.nextId, typeCritical, defCritical⟩], db.nextId + 1⟩) := by
      simp [addDefault, h, hcr]
    simp [CriticalGetLatest, had,
      getLatest_insert db typeCritical defCritical (db.nextId + 1) h]
  · intro c hc
    simp [CriticalGetLatest, addDefault, hc]

/-- Witness for C9: on an empty database, SiteGetLatest inserts the default
site config and returns it. -/
theorem c9_getlatest_inserts_default_witness :
    SiteGetLatest (fun _ => true) "a" ⟨[], 5⟩ =
      .ok (some ⟨5, typeSite, "a"⟩, ⟨[⟨5, typeSite, "a"⟩], 6⟩) :=
  (c9_getlatest_inserts_default (fun _ => true) "a" "a" ⟨[], 5⟩).1 rfl rfl

theorem createIfUpToDate_ok (valid : String → Bool) (db : DB) (t : String)
    (lastID : Option Nat) (contents : String) (hv : valid contents = true) :
    ∃ r, createIfUpToDate valid db t lastID contents = .ok r := by
  rcases hg : getLatest db t with _ | latest
  · exact ⟨(⟨db.nextId, "", contents⟩,
      ⟨db.rows ++ [⟨db.nextId, t, contents⟩], db.nextId + 1⟩),
      by simp [createIfUpToDate, hv, hg]⟩
  · rcases lastID with _ | x
    · exact ⟨(latest, db), by simp [createIfUpToDate, hv, hg]⟩
    · by_cases hid : latest.id = x
      · exact ⟨(⟨db.nextId, "", contents⟩,
          ⟨db.rows ++ [⟨db.nextId, t, contents⟩], db.nextId + 1⟩),
          by simp [createIfUpToDate, hv, hg, hid]⟩
      · exact ⟨(latest, db), by simp [createIfUpToDate, hv, hg, hid]⟩

/-- C10: with valid JSON contents, when a latest config of the type already
exists and the supplied lastID is nil or differs from its id, no row is
inserted and the existing latest config is returned with no error; and with
valid contents (and a valid configured default) the call never returns an
error at all, so a stale lastID is reported only through the returned
config. -/
theorem c10_stale_lastid_no_error (valid : String → Bool)
    (defSite defCritical : String) (db : DB) (lastID : Option Nat) (contents : String) :
    (∀ c, valid contents = true → getLatest db typeSite = some c →
      (lastID = none ∨ ∃ x, lastID = some x ∧ x ≠ c.id) →
      SiteCreateIfUpToDate valid defSite db lastID contents = .ok (c, db))
    ∧ (∀ c, valid contents = true → getLatest db typeCritical = some c →
      (lastID = none ∨ ∃ x, lastID = some x ∧ x ≠ c.id) →
      CriticalCreateIfUpToDate valid defCritical db lastID contents = .ok (c, db))
    ∧ (valid contents = true → valid defSite = true →
      ∃ r, SiteCreateIfUpToDate valid defSite db lastID contents = .ok r)
    ∧ (valid contents = true → valid defCritical = true →
      ∃ r, CriticalCreateIfUpToDate valid defCritical db lastID contents = .ok r) := by
  refine ⟨?_, ?_, ?_, ?_⟩
  · intro c hv hc hstale
    have hcr : createIfUpToDate valid db typeSite lastID contents = .ok (c, db) := by
      rcases hstale with h | ⟨x, hx, hne⟩
      · subst h
        simp [createIfUpToDate, hv, hc]
      · subst hx
        simp [createIfUpToDate, hv, hc, Ne.symm hne]
    simp [SiteCreateIfUpToDate, addDefault, hc, hcr]
  · intro c hv hc hstale
    have hcr : createIfUpToDate valid db typeCritical lastID contents = .ok (c, db) := by
      rcases hstale with h | ⟨x, hx, hne⟩
      · subst h
        simp [createIfUpToDate, hv, hc]
      · subst hx
        simp [createIfUpToDate, hv, hc, Ne.symm hne]
    simp [CriticalCreateIfUpToDate, addDefault, hc, hcr]
  · intro hv hd
    rcases hg : getLatest db typeSite with _ | latest
    · obtain ⟨⟨cfg, db1⟩, h1⟩ := createIfUpToDate_ok valid db typeSite none defSite hd
      obtain ⟨r, h2⟩ := createIfUpToDate_ok valid db1 typeSite (some cfg.id) contents hv
      exact ⟨r, by simp [SiteCreateIfUpToDate, addDefault, hg, h1, h2]⟩
    · obtain ⟨r, h2⟩ := createIfUpToDate_ok valid db typeSite lastID contents hv
      exact ⟨r, by simp [SiteCreateIfUpToDate, addDefault, hg, h2]⟩
  · intro hv hd
    rcases hg : getLatest db typeCritical with _ | latest
    · obtain ⟨⟨cfg, db1⟩, h1⟩ := createIfUpToDate_ok valid db typeCritical none defCritical hd
      obtain ⟨r, h2⟩ := createIfUpToDate_ok valid db1 typeCritical (some cfg.id) contents hv
      exact ⟨r, by simp [CriticalCreateIfUpToDate, addDefault, hg, h1, h2]⟩
    · obtain ⟨r, h2⟩ := createIfUpToDate_ok valid db typeCritical lastID contents hv
      exact ⟨r, by simp [CriticalCreateIfUpToDate, addDefault, hg, h2]⟩

/-- Witness for C10: a stale lastID against an existing site config returns
the existing config and leaves the database unchanged. -/
theorem c10_stale_lastid_no_error_witness :
    SiteCreateIfUpToDate (fun _ => true) "a" ⟨[⟨1, typeSite, "a"⟩], 2⟩ (some 5) "b" =
      .ok (⟨1, typeSite, "a"⟩, ⟨[⟨1, typeSite, "a"⟩], 2⟩) :=
  (c10_stale_lastid_no_error (fun _ => true) "a" "a" ⟨[⟨1, typeSite, "a"⟩], 2⟩
    (some 5) "b").1 ⟨1, typeSite, "a"⟩ rfl rfl (Or.inr ⟨5, rfl, by decide⟩)

end Confdb
